import Mathlib

/-!
Verification of the matching core of `spotify_tidal_transfer.py`: a shallow embedding of the cross-catalog matching engine of the
Spotify→TIDAL transfer tool: the text normalizer
(`_normalize_search_text`), the primary-artist extractor
(`_extract_primary_artist`), the artist similarity scorer
(`_calculate_artist_similarity`), the progressive-fallback track matcher
(`search_tidal_track`) and the playlist batch-flush loop of
`direct_transfer_playlists`.

Modelling conventions:
* Python strings are `String`/`List Char`; `str.lower` is modelled per
  character by `Char.toLower` and the whitespace of `str.split`/`str.strip`
  by the six ASCII whitespace characters (the strings handled by the tool
  are treated as ASCII; this matches CPython on that fragment).
* Python floats are modelled by exact rationals `ℚ`.  All score constants
  (0.6, 0.2, 0.1, 0.85, 0.9, 0.7, 0.5, 0.8) are dyadic/decimal values
  whose sums and products stay far from the rounding granularity of IEEE
  doubles, so comparisons against the thresholds agree with the float run.
* The regex substitutions of `_normalize_search_text` are embedded as
  explicit left-to-right scanners:
  - `re.sub(r'\([^)]*\)', '', t)` removes, scanning left to right, every
    maximal span from an opening delimiter through the first closing
    delimiter after it (an opener with no later closer is kept);
  - `re.sub(r'\b' + re.escape(w) + r'\b', '', t, flags=re.IGNORECASE)`
    removes case-insensitive occurrences of the literal `w` that are
    flanked by `\b` word boundaries; `\b` holds between two adjacent
    positions iff exactly one side is a word character (`[A-Za-z0-9_]`),
    the ends of the string counting as non-word.  Matches are
    non-overlapping and later boundary checks look at the original
    characters, hence the scanner keeps the previously scanned character.
* The TIDAL search capability is an oracle
  `String → Option (List TidalTrack)`; `none` models the call raising an
  exception (caught by the `except` branch), `some ts` a reply whose
  `tracks` field is `ts`.
* The fixed inter-query `time.sleep(0.1)` is untimed (it does not change
  any data), and the functions with fuel arguments use `length` fuel,
  which a scan consuming at least one character per step never exhausts.
-/

namespace SpotifyTidal

/-- A word character in the sense of the regex `\b` boundary (`\w`, ASCII). -/
def isWordChar (c : Char) : Bool := c.isAlphanum || c = '_'

/-- Whitespace as understood by Python `str.split()` / `str.strip()` (ASCII). -/
def isSpaceChar (c : Char) : Bool :=
  c = ' ' || c = '\t' || c = '\n' || c = '\r' || c = '\x0b' || c = '\x0c'

/-- Lower-casing, `text.lower()`, per character. -/
def lowerChars (s : List Char) : List Char := s.map Char.toLower

/-- Stripping, `text.strip()`: remove leading and trailing whitespace. -/
def stripChars (s : List Char) : List Char :=
  ((s.dropWhile isSpaceChar).reverse.dropWhile isSpaceChar).reverse

/-- Drop characters up to and including the first occurrence of `cl`;
`none` when `cl` does not occur. -/
def dropThrough (cl : Char) : List Char → Option (List Char)
  | [] => none
  | c :: cs => if c = cl then some cs else dropThrough cl cs

/-- Scanner for `re.sub(r'\(' ++ "[^)]*" ++ r'\)', '', text)` (and the bracket
variant): at an opening delimiter with a later closing delimiter, the span
through the first closer is removed and scanning continues after it;
otherwise the character is kept.  The fuel is the number of characters still
allowed to be consumed; it starts at the length of the string and a step
always consumes at least one character, so the `0` case is never reached. -/
def stripEnclosedAux (op cl : Char) : Nat → List Char → List Char
  | 0, s => s
  | _ + 1, [] => []
  | fuel + 1, c :: cs =>
    if c = op then
      match dropThrough cl cs with
      | some rest => stripEnclosedAux op cl fuel rest
      | none => c :: stripEnclosedAux op cl fuel cs
    else c :: stripEnclosedAux op cl fuel cs

/-- Remove every `op … cl` span, as the two regex substitutions do. -/
def stripEnclosed (op cl : Char) (s : List Char) : List Char :=
  stripEnclosedAux op cl s.length s

/-- Case-insensitive match of the literal `w` against a prefix of `s`
(`re.IGNORECASE`). -/
def matchesCI : List Char → List Char → Bool
  | [], _ => true
  | _ :: _, [] => false
  | a :: as, b :: bs => (a.toLower == b.toLower) && matchesCI as bs

/-- Wordness of the character on one side of a position; the ends of the
string count as non-word. -/
def wordOpt : Option Char → Bool
  | none => false
  | some c => isWordChar c

/-- The regex word boundary `\b`: it holds between two adjacent characters
iff exactly one of them is a word character. -/
def isBoundary (l r : Option Char) : Bool := wordOpt l != wordOpt r

/-- Scanner for `re.sub(r'\b' ++ re.escape w ++ r'\b', '', text, re.IGNORECASE)`:
`prev` is the original character just before the scan position (`none` at the
start).  A match needs the literal (case-insensitively) at the position and a
`\b` boundary on both sides; the span is then dropped and scanning continues
after it, remembering the last matched character as the new `prev` (matches
are non-overlapping, and boundary checks read original characters). -/
def removeWordAux (w : List Char) : Nat → Option Char → List Char → List Char
  | 0, _, s => s
  | _ + 1, _, [] => []
  | fuel + 1, prev, c :: cs =>
    if matchesCI w (c :: cs) && isBoundary prev (some c) &&
        isBoundary (((c :: cs).take w.length).getLast?)
          (((c :: cs).drop w.length).head?) && !w.isEmpty then
      removeWordAux w fuel (((c :: cs).take w.length).getLast?)
        ((c :: cs).drop w.length)
    else c :: removeWordAux w fuel (some c) cs

/-- One noise-word substitution pass. -/
def removeWord (w : String) (s : List Char) : List Char :=
  removeWordAux w.data s.length none s

/-- The `noise_words` list of `_normalize_search_text`, in source order. -/
def noiseWords : List String := ["feat.", "ft.", "featuring", "with", "vs.", "vs", "&"]

/-- The successive noise-word substitutions of `_normalize_search_text`. -/
def removeNoiseWords (s : List Char) : List Char :=
  noiseWords.foldl (fun acc w => removeWord w acc) s

/-- Splitting, `text.split()`: split on runs of whitespace, dropping empty
pieces (`acc` holds the current word, reversed). -/
def splitOnSpace : List Char → List Char → List (List Char)
  | [], acc => if acc.isEmpty then [] else [acc.reverse]
  | c :: cs, acc =>
    if isSpaceChar c then
      if acc.isEmpty then splitOnSpace cs [] else acc.reverse :: splitOnSpace cs []
    else splitOnSpace cs (c :: acc)

/-- Joining with single spaces, `' '.join(pieces)`. -/
def joinSpace : List (List Char) → List Char
  | [] => []
  | [w] => w
  | w :: ws => w ++ ' ' :: joinSpace ws

/-- The function `_normalize_search_text` (`spotify_tidal_transfer.py:234-251`): empty
input stays empty; otherwise remove `(...)` spans, then `[...]` spans, then
the noise words in order, then collapse whitespace (`' '.join(text.split())`)
and strip. -/
def normalizeSearchText (text : String) : String :=
  if text.data.isEmpty then ""
  else
    let t1 := stripEnclosed '(' ')' text.data
    let t2 := stripEnclosed '[' ']' t1
    let t3 := removeNoiseWords t2
    ⟨stripChars (joinSpace (splitOnSpace t3 []))⟩

/-- The separator list of `_extract_primary_artist`, in source order. -/
def separators : List String := [",", ";", "&", " and ", " x ", " X "]

/-- Python `pat in s` (substring test). -/
def containsSub (pat : List Char) : List Char → Bool
  | [] => pat.isEmpty
  | c :: cs => pat.isPrefixOf (c :: cs) || containsSub pat cs

/-- The part of the string before the first occurrence of `pat`, `s.split(pat)[0]`. -/
def takeBeforeSub (pat : List Char) : List Char → List Char
  | [] => []
  | c :: cs => if pat.isPrefixOf (c :: cs) then [] else c :: takeBeforeSub pat cs

/-- The function `_extract_primary_artist` (`spotify_tidal_transfer.py:253-263`) on
character lists: empty input gives empty; the first separator occurring in
the string splits it and the piece before it is stripped; with no separator
the whole string is stripped. -/
def primaryArtistChars (s : List Char) : List Char :=
  if s.isEmpty then []
  else
    match separators.find? (fun sep => containsSub sep.data s) with
    | some sep => stripChars (takeBeforeSub sep.data s)
    | none => stripChars s

/-- String-level `_extract_primary_artist`. -/
def extractPrimaryArtist (s : String) : String := ⟨primaryArtistChars s.data⟩

/-- The word set `set(a.split())` used by the overlap rule. -/
def wordSet (s : List Char) : Finset (List Char) := (splitOnSpace s []).toFinset

/-- The function `_calculate_artist_similarity` (`spotify_tidal_transfer.py:265-294`):
the scoring ladder over the lower-cased, stripped inputs — emptiness 0.0,
exact 1.0, one-contains-the-other 0.9, equal primary artists 0.85, then
word overlap `|w1 ∩ w2| / max(|w1|,|w2|) * 0.7`, and 0.0 when a word set is
empty. -/
def calculateArtistSimilarity (artist1 artist2 : String) : ℚ :=
  if artist1.data.isEmpty || artist2.data.isEmpty then 0
  else
    let a1 := stripChars (lowerChars artist1.data)
    let a2 := stripChars (lowerChars artist2.data)
    if a1 = a2 then 1
    else if containsSub a1 a2 || containsSub a2 a1 then 0.9
    else if primaryArtistChars a1 = primaryArtistChars a2 then 0.85
    else
      let w1 := wordSet a1
      let w2 := wordSet a2
      if 0 < w1.card ∧ 0 < w2.card then
        ((w1 ∩ w2).card : ℚ) / ((max w1.card w2.card : Nat) : ℚ) * 0.7
      else 0

/-- The artist object attached to a TIDAL track (only its name is read). -/
structure TidalArtist where
  name : String
deriving DecidableEq

/-- The album object attached to a TIDAL track (only its name is read). -/
structure TidalAlbum where
  name : String
deriving DecidableEq

/-- A TIDAL track candidate as read by `search_tidal_track`:
`artist`/`album` are `none` when the attribute is missing or falsy
(`hasattr(track, 'artist') and track.artist`), `duration` is in seconds and
`none` when missing (`duration = 0`, which Python treats as falsy, is kept
as `some 0` and handled by the truthiness tests below). -/
structure TidalTrack where
  id : Nat
  name : String
  artist : Option TidalArtist
  album : Option TidalAlbum
  duration : Option Nat
deriving DecidableEq

/-- The mutable loop state of `search_tidal_track`:
`best_match`, `best_score`, `query_used` (initially `None`, `0.0`, `None`). -/
structure MatchState where
  best_match : Option TidalTrack
  best_score : ℚ
  query_used : Option String
deriving DecidableEq

/-- The dict returned on success: `{'track': …, 'confidence': …, 'query_used': …}`. -/
structure MatchResult where
  track : TidalTrack
  confidence : ℚ
  query_used : Option String
deriving DecidableEq

/-- The per-attempt inputs in scope while candidates are scored: the raw
artist string, the optional album name and duration (ms) arguments, and the
normalized track name `track_clean`. -/
structure MatchCtx where
  artist_name : String
  album_name : Option String
  duration_ms : Option Nat
  track_clean : String
deriving DecidableEq

/-- Python truthiness of the optional `duration_ms` / `track.duration`. -/
def durTruthy : Option Nat → Bool
  | none => false
  | some n => n != 0

/-- Python truthiness of the optional `album_name` argument. -/
def albumTruthy : Option String → Bool
  | none => false
  | some s => !s.data.isEmpty

/-- The candidate's artist name, `track.artist.name` when present, else the empty string. -/
def candidateArtistName (t : TidalTrack) : String :=
  match t.artist with
  | some a => a.name
  | none => ""

/-- The candidate score of `search_tidal_track` (lines 333-359):
artist similarity × 0.6; album similarity × 0.2 when both an album argument
and a candidate album are present (and truthy); the duration bonus 0.2/0.1/0
by `abs(duration_ms - track.duration * 1000)` against 5000/15000 ms when both
durations are present and truthy, else a flat 0.1; and 0.1 when one
normalized, lower-cased name contains the other. -/
def scoreTrack (ctx : MatchCtx) (t : TidalTrack) : ℚ :=
  let artist_sim := calculateArtistSimilarity ctx.artist_name (candidateArtistName t)
  let albumScore : ℚ :=
    match ctx.album_name, t.album with
    | some al, some talb =>
      if al.data.isEmpty then 0
      else calculateArtistSimilarity al talb.name * 0.2
    | _, _ => 0
  let durationScore : ℚ :=
    match ctx.duration_ms, t.duration with
    | some dm, some ds =>
      if dm = 0 ∨ ds = 0 then 0.1
      else if ((dm : ℤ) - (ds : ℤ) * 1000).natAbs < 5000 then 0.2
      else if ((dm : ℤ) - (ds : ℤ) * 1000).natAbs < 15000 then 0.1
      else 0
    | _, _ => 0.1
  let track_name_clean := normalizeSearchText t.name
  let nameScore : ℚ :=
    if containsSub (lowerChars ctx.track_clean.data) (lowerChars track_name_clean.data) ||
        containsSub (lowerChars track_name_clean.data) (lowerChars ctx.track_clean.data)
    then 0.1 else 0
  artist_sim * 0.6 + albumScore + durationScore + nameScore

/-- The `if score > best_score` update for one scored candidate of query `q`. -/
def scoreStep (ctx : MatchCtx) (q : String) (st : MatchState) (t : TidalTrack) : MatchState :=
  if scoreTrack ctx t > st.best_score then ⟨some t, scoreTrack ctx t, some q⟩ else st

/-- What one run of the query loop produced: the final state, the issued
search calls (each with the `best_score` in force when it was issued), and
the scored candidates in encounter order, tagged by their query. -/
structure RunOut where
  state : MatchState
  calls : List (String × ℚ)
  seen : List (String × TidalTrack)
deriving DecidableEq

/-- The query loop of `search_tidal_track` (lines 324-376).  For each query
in order: a raised search call (`none`) is caught and skipped; an empty
`tracks` list is skipped; otherwise every returned candidate is scored and
folded into the running best, and the loop breaks once `best_score >= 0.8`.
`search q = none` models the `except` branch, so a failing query still
counts as an issued call. -/
def runQueries (search : String → Option (List TidalTrack)) (ctx : MatchCtx) :
    List String → MatchState → RunOut
  | [], st => ⟨st, [], []⟩
  | q :: qs, st =>
    match search q with
    | none =>
      let o := runQueries search ctx qs st
      ⟨o.state, (q, st.best_score) :: o.calls, o.seen⟩
    | some ts =>
      if ts.isEmpty then
        let o := runQueries search ctx qs st
        ⟨o.state, (q, st.best_score) :: o.calls, o.seen⟩
      else
        let st2 := ts.foldl (scoreStep ctx q) st
        if st2.best_score ≥ 0.8 then ⟨st2, [(q, st.best_score)], ts.map (fun t => (q, t))⟩
        else
          let o := runQueries search ctx qs st2
          ⟨o.state, (q, st.best_score) :: o.calls, ts.map (fun t => (q, t)) ++ o.seen⟩

/-- The progressive fallback queries (lines 311-318), `None` entries removed:
quoted name+primary and plain name+primary when the primary artist is
non-empty, name+full-artist when the cleaned artist string is non-empty and
differs from the primary, and the bare name. -/
def buildQueries (track_clean artist_clean primary_artist : String) : List String :=
  (if !primary_artist.data.isEmpty
    then ["\"" ++ track_clean ++ "\" \"" ++ primary_artist ++ "\""] else []) ++
  (if !primary_artist.data.isEmpty
    then [track_clean ++ " " ++ primary_artist] else []) ++
  (if !artist_clean.data.isEmpty && (artist_clean != primary_artist)
    then [track_clean ++ " " ++ artist_clean] else []) ++
  [track_clean]

/-- The context `search_tidal_track` scores candidates in. -/
def mkCtx (artist_name : String) (album_name : Option String)
    (duration_ms : Option Nat) (track_name : String) : MatchCtx :=
  ⟨artist_name, album_name, duration_ms, normalizeSearchText track_name⟩

/-- The return step of `search_tidal_track` (lines 378-386): the best match
is returned when one exists with `best_score >= 0.5`, else `None`. -/
def finishRun (o : RunOut) : Option MatchResult :=
  match o.state.best_match with
  | some t =>
    if o.state.best_score ≥ 0.5
      then some ⟨t, o.state.best_score, o.state.query_used⟩ else none
  | none => none

/-- The function `search_tidal_track` (lines 296-386), instrumented: the returned value
together with the loop's `RunOut`.  An empty normalized track name returns
immediately with no calls; otherwise the queries are run and the result is
read off the final state by `finishRun`. -/
def searchTidalTrackRun (search : String → Option (List TidalTrack))
    (track_name artist_name : String) (album_name : Option String)
    (duration_ms : Option Nat) : Option MatchResult × RunOut :=
  let track_clean := normalizeSearchText track_name
  let artist_clean := normalizeSearchText artist_name
  let primary_artist := extractPrimaryArtist artist_clean
  if track_clean.data.isEmpty then (none, ⟨⟨none, 0, none⟩, [], []⟩)
  else
    let queries := buildQueries track_clean artist_clean primary_artist
    let o := runQueries search
      (mkCtx artist_name album_name duration_ms track_name) queries ⟨none, 0, none⟩
    (finishRun o, o)

/-- The function `search_tidal_track`: just the returned value. -/
def searchTidalTrack (search : String → Option (List TidalTrack))
    (track_name artist_name : String) (album_name : Option String)
    (duration_ms : Option Nat) : Option MatchResult :=
  (searchTidalTrackRun search track_name artist_name album_name duration_ms).1

/-- The search calls one attempt issued, with the best score before each. -/
def searchTidalTrackCalls (search : String → Option (List TidalTrack))
    (track_name artist_name : String) (album_name : Option String)
    (duration_ms : Option Nat) : List (String × ℚ) :=
  (searchTidalTrackRun search track_name artist_name album_name duration_ms).2.calls

/-- The candidates one attempt scored, in encounter order. -/
def searchTidalTrackSeen (search : String → Option (List TidalTrack))
    (track_name artist_name : String) (album_name : Option String)
    (duration_ms : Option Nat) : List (String × TidalTrack) :=
  (searchTidalTrackRun search track_name artist_name album_name duration_ms).2.seen

/-- The per-playlist track loop of `direct_transfer_playlists`
(lines 828-885), restricted to what reaches the write capability: items are
processed in catalog order; a matched item's TIDAL id is appended to
`batch_ids`, and whenever the buffer reaches exactly 50 ids it is written
out and cleared.  `matchId` gives the matched TIDAL track id, `none` for a
failed item (no-match and per-item errors touch only the failure ledger,
never the buffer). -/
def flushItems {α : Type} (matchId : α → Option Nat) :
    List Nat → List α → List (List Nat)
  | buf, [] => if buf.isEmpty then [] else [buf]
  | buf, item :: rest =>
    match matchId item with
    | none => flushItems matchId buf rest
    | some i =>
      let buf2 := buf ++ [i]
      if buf2.length = 50 then buf2 :: flushItems matchId [] rest
      else flushItems matchId buf2 rest

/-- The write calls (`tidal_playlist.add(batch_ids)`) one playlist's
transfer issues, in order: the pages of `spotify.playlist_tracks` are
concatenated in pagination order, the buffer persists across page
boundaries, and a final non-empty buffer is flushed once pagination
completes. -/
def playlistWriteCalls {α : Type} (matchId : α → Option Nat)
    (pages : List (List α)) : List (List Nat) :=
  flushItems matchId [] pages.flatten

/-- The buffering loop on the matched ids alone (the unmatched items of
`flushItems` do not touch the buffer, so the two agree; proved below). -/
def flushBuf : List Nat → List Nat → List (List Nat)
  | buf, [] => if buf.isEmpty then [] else [buf]
  | buf, i :: ids =>
    if (buf ++ [i]).length = 50 then (buf ++ [i]) :: flushBuf [] ids
    else flushBuf (buf ++ [i]) ids

/-- The batch sizes the loop produces for `n` buffered ids: full batches of
50 and one final remainder batch. -/
def batchSizes (n : Nat) : List Nat :=
  List.replicate (n / 50) 50 ++ (if n % 50 = 0 then [] else [n % 50])

/-- The running maximum of candidate scores over `(query, track)` pairs,
seeded by a `best_score` value. -/
def maxFrom (ctx : MatchCtx) : ℚ → List (String × TidalTrack) → ℚ
  | b, [] => b
  | b, p :: ps => maxFrom ctx (max b (scoreTrack ctx p.2)) ps

/-- The best-candidate update folded over `(query, track)` pairs. -/
def foldPairs (ctx : MatchCtx) : MatchState → List (String × TidalTrack) → MatchState
  | st, [] => st
  | st, p :: ps => foldPairs ctx (scoreStep ctx p.1 st p.2) ps

/-- An oracle on which every search call raises (lands in `except`). -/
def failingSearch : String → Option (List TidalTrack) := fun _ => none

/-- An oracle answering every query with an empty result list. -/
def emptySearch : String → Option (List TidalTrack) := fun _ => some []

/-- The spec's end-to-end candidate: exact artist and album matches,
duration 295 s, name equal to the query name. -/
def helloTrack : TidalTrack := ⟨77, "Hello", some ⟨"Adele"⟩, some ⟨"25"⟩, some 295⟩

/-- An oracle returning the perfect candidate for every query. -/
def helloSearch : String → Option (List TidalTrack) := fun _ => some [helloTrack]

/-- First of two candidates scoring identically (tie-breaking checks). -/
def tieTrackA : TidalTrack := ⟨1, "Hello", some ⟨"Adele"⟩, none, none⟩

/-- Second of two candidates scoring identically (tie-breaking checks). -/
def tieTrackB : TidalTrack := ⟨2, "Hello", some ⟨"Adele"⟩, none, none⟩

/-- An oracle returning the two tied candidates, `tieTrackA` first. -/
def tieSearch : String → Option (List TidalTrack) := fun _ => some [tieTrackA, tieTrackB]

/-! Claims C2 and C3: the text normalizer on the spec's example, and
idempotence. -/

/-- C2 counterexample: the spec expects `normalize` to delete the noise word
`feat.`, but the substitution pattern puts a `\b` boundary after the dot,
which fails when a space follows, so the example keeps `feat. Bob`. -/
theorem normalize_example_cex :
    normalizeSearchText "Song (Live) [Remaster] feat. Bob" ≠ "Song" := by decide

/-- C2 amended: parenthesized and bracketed spans are removed and noise
tokens are removed at regex word boundaries; a token ending in `.` is only
removed when a word character follows it directly, so the spec's example
yields `"Song feat. Bob"`, while `featuring Bob` and `feat.Bob` do lose
their noise token. -/
theorem normalize_example_amended :
    normalizeSearchText "Song (Live) [Remaster] feat. Bob" = "Song feat. Bob" ∧
    normalizeSearchText "Song (Live) [Remaster] featuring Bob" = "Song Bob" ∧
    normalizeSearchText "Song feat.Bob (Live)" = "Song Bob" := by decide

/-- C3 counterexample: `normalize` is not idempotent — removing an `&`
flanked by word characters concatenates the flanks, which can form a fresh
noise word: `normalize "v&s" = "vs"` but `normalize "vs" = ""`. -/
theorem normalize_not_idempotent_cex :
    normalizeSearchText (normalizeSearchText "v&s") ≠ normalizeSearchText "v&s" := by
  decide

/-- C3 amended: `normalize` is not idempotent in general (the `&`
substitution can splice a new noise word, as `"v&s" ↦ "vs" ↦ ""` shows);
on the spec's own example a second application changes nothing. -/
theorem normalize_idempotence_amended :
    normalizeSearchText "v&s" = "vs" ∧ normalizeSearchText "vs" = "" ∧
    normalizeSearchText (normalizeSearchText "Song (Live) [Remaster] feat. Bob") =
      normalizeSearchText "Song (Live) [Remaster] feat. Bob" := by decide

/-! Claim C5: batch flushing of matched playlist tracks. -/

/-- Unmatched items do not touch the buffer: the interleaved loop equals the
buffering loop on the filtered id sequence. -/
theorem flushItems_eq_flushBuf {α : Type} (matchId : α → Option Nat) :
    ∀ (xs : List α) (buf : List Nat),
      flushItems matchId buf xs = flushBuf buf (xs.filterMap matchId) := by
  intro xs
  induction xs with
  | nil => intro buf; rfl
  | cons x xs ih =>
    intro buf
    cases h : matchId x with
    | none => simp [flushItems, flushBuf, h, List.filterMap_cons, ih]
    | some i =>
      simp only [flushItems, h, List.filterMap_cons, flushBuf]
      split <;> rw [ih]

/-- The write sizes of the buffering loop: starting below a full buffer, the
call sizes are exactly the 50-chunking of the total id count. -/
theorem flushBuf_sizes :
    ∀ (ids buf : List Nat), buf.length < 50 →
      (flushBuf buf ids).map List.length = batchSizes (buf.length + ids.length) := by
  intro ids
  induction ids with
  | nil =>
    intro buf h
    show (if buf.isEmpty then ([] : List (List Nat)) else [buf]).map List.length =
      batchSizes (buf.length + 0)
    rw [Nat.add_zero]
    unfold batchSizes
    rw [Nat.div_eq_of_lt h, Nat.mod_eq_of_lt h]
    cases buf with
    | nil => simp
    | cons b bs => simp
  | cons i ids ih =>
    intro buf h
    have hlen : (buf ++ [i]).length = buf.length + 1 := by simp
    show (if (buf ++ [i]).length = 50 then ((buf ++ [i]) :: flushBuf [] ids)
      else flushBuf (buf ++ [i]) ids).map List.length =
      batchSizes (buf.length + (ids.length + 1))
    split_ifs with h50
    · have hbl : buf.length = 49 := by omega
      simp only [List.map_cons]
      rw [ih [] (by norm_num), hlen, hbl]
      simp only [List.length_nil, Nat.zero_add]
      have harith : 49 + (ids.length + 1) = ids.length + 50 := by omega
      rw [harith]
      unfold batchSizes
      rw [Nat.add_div_right _ (by norm_num), Nat.add_mod_right, List.replicate_succ]
      simp
    · have h' : (buf ++ [i]).length < 50 := by omega
      rw [ih (buf ++ [i]) h', hlen]
      congr 1
      omega

/-- C5: if one playlist's pagination yields 125 matched tracks, exactly
three write calls occur, of sizes 50, 50 and 25, in that order. -/
theorem batch_flush_sizes_50_50_25 {α : Type} (matchId : α → Option Nat)
    (pages : List (List α)) (h : (pages.flatten.filterMap matchId).length = 125) :
    (playlistWriteCalls matchId pages).map List.length = [50, 50, 25] := by
  unfold playlistWriteCalls
  rw [flushItems_eq_flushBuf, flushBuf_sizes _ [] (by norm_num)]
  simp only [List.length_nil, Nat.zero_add, h]
  decide

set_option maxRecDepth 8000 in
/-- C5 witness: a single 125-item page, every item matched. -/
theorem batch_flush_sizes_witness :
    ((([List.range 125] : List (List Nat)).flatten.filterMap some).length = 125) ∧
    (playlistWriteCalls some [List.range 125]).map List.length = [50, 50, 25] :=
  ⟨by decide, batch_flush_sizes_50_50_25 some [List.range 125] (by decide)⟩

/-! Claim C6: an empty normalized track name short-circuits the matcher. -/

/-- C6: whenever the normalized track name is empty, `search_tidal_track`
returns `None` at once and issues no search call, whatever the artist,
album and duration arguments are. -/
theorem empty_track_name_no_search (search : String → Option (List TidalTrack))
    (track_name artist_name : String) (album_name : Option String)
    (duration_ms : Option Nat) (h : normalizeSearchText track_name = "") :
    searchTidalTrack search track_name artist_name album_name duration_ms = none ∧
    searchTidalTrackCalls search track_name artist_name album_name duration_ms = [] := by
  have hE : (normalizeSearchText track_name).data.isEmpty = true := by rw [h]; rfl
  constructor <;>
    simp [searchTidalTrack, searchTidalTrackCalls, searchTidalTrackRun, hE]

/-- C6 witness: a name that normalizes to the empty string. -/
theorem empty_track_name_no_search_witness :
    searchTidalTrack failingSearch "(Live)" "Adele" (some "25") (some 295000) = none ∧
    searchTidalTrackCalls failingSearch "(Live)" "Adele" (some "25") (some 295000) = [] :=
  empty_track_name_no_search failingSearch "(Live)" "Adele" (some "25") (some 295000)
    (by decide)

/-! Claim C7: a raised search call skips only that query. -/

/-- C7: when the search call for query `q` raises, the loop continues with
the remaining queries on the unchanged state: the final state and scored
candidates are those of the remaining queries, and the failing call is
merely recorded; nothing propagates to the caller. -/
theorem failed_query_skipped (search : String → Option (List TidalTrack))
    (ctx : MatchCtx) (q : String) (qs : List String) (st : MatchState)
    (h : search q = none) :
    runQueries search ctx (q :: qs) st =
      ⟨(runQueries search ctx qs st).state,
       (q, st.best_score) :: (runQueries search ctx qs st).calls,
       (runQueries search ctx qs st).seen⟩ := by
  simp [runQueries, h]

/-- C7 witness: an oracle on which the first query raises. -/
theorem failed_query_skipped_witness :
    runQueries failingSearch ⟨"Adele", none, none, "Hello"⟩ ("q1" :: ["q2"]) ⟨none, 0, none⟩ =
      ⟨(runQueries failingSearch ⟨"Adele", none, none, "Hello"⟩ ["q2"] ⟨none, 0, none⟩).state,
       ("q1", (⟨none, 0, none⟩ : MatchState).best_score) ::
         (runQueries failingSearch ⟨"Adele", none, none, "Hello"⟩ ["q2"] ⟨none, 0, none⟩).calls,
       (runQueries failingSearch ⟨"Adele", none, none, "Hello"⟩ ["q2"] ⟨none, 0, none⟩).seen⟩ :=
  failed_query_skipped failingSearch ⟨"Adele", none, none, "Hello"⟩ "q1" ["q2"]
    ⟨none, 0, none⟩ rfl

/-! Claim C8: reflexivity of the artist similarity scorer. -/

/-- C8: for non-empty inputs that agree after lower-casing and stripping —
in particular any non-empty string compared with itself — the scorer
returns 1.0 (the exact-match rung of the ladder). -/
theorem similarity_one_of_lower_strip_eq (a b : String) (ha : a ≠ "") (hb : b ≠ "")
    (h : stripChars (lowerChars a.data) = stripChars (lowerChars b.data)) :
    calculateArtistSimilarity a b = 1 := by
  have ha' : a.data.isEmpty = false := by
    cases hx : a.data with
    | nil => exact absurd (String.ext (by rw [hx])) ha
    | cons c cs => rfl
  have hb' : b.data.isEmpty = false := by
    cases hx : b.data with
    | nil => exact absurd (String.ext (by rw [hx])) hb
    | cons c cs => rfl
  simp [calculateArtistSimilarity, ha', hb', h]

/-- C8 witness: two spellings of the same artist. -/
theorem similarity_one_witness : calculateArtistSimilarity "Drake " "drake" = 1 :=
  similarity_one_of_lower_strip_eq "Drake " "drake" (by decide) (by decide) (by decide)

/-! Claim C10: symmetry of the artist similarity scorer. -/

/-- C10: every rung of the similarity ladder is symmetric in its two
arguments, so the scorer's value is symmetric. -/
theorem similarity_symmetric (a b : String) :
    calculateArtistSimilarity a b = calculateArtistSimilarity b a := by
  simp only [calculateArtistSimilarity]
  by_cases hE : (a.data.isEmpty || b.data.isEmpty) = true
  · have hE' : (b.data.isEmpty || a.data.isEmpty) = true := by rwa [Bool.or_comm] at hE
    rw [if_pos hE, if_pos hE']
  · have hE' : ¬ (b.data.isEmpty || a.data.isEmpty) = true := fun hc =>
      hE (by rwa [Bool.or_comm] at hc)
    rw [if_neg hE, if_neg hE']
    by_cases h1 : stripChars (lowerChars a.data) = stripChars (lowerChars b.data)
    · rw [if_pos h1, if_pos h1.symm]
    · have h1' : ¬ stripChars (lowerChars b.data) = stripChars (lowerChars a.data) :=
        fun hc => h1 hc.symm
      rw [if_neg h1, if_neg h1']
      by_cases h2 : (containsSub (stripChars (lowerChars a.data))
          (stripChars (lowerChars b.data)) ||
          containsSub (stripChars (lowerChars b.data)) (stripChars (lowerChars a.data))) = true
      · have h2' : (containsSub (stripChars (lowerChars b.data))
            (stripChars (lowerChars a.data)) ||
            containsSub (stripChars (lowerChars a.data))
              (stripChars (lowerChars b.data))) = true := by rwa [Bool.or_comm] at h2
        rw [if_pos h2, if_pos h2']
      · have h2' : ¬ (containsSub (stripChars (lowerChars b.data))
            (stripChars (lowerChars a.data)) ||
            containsSub (stripChars (lowerChars a.data))
              (stripChars (lowerChars b.data))) = true := fun hc =>
          h2 (by rwa [Bool.or_comm] at hc)
        rw [if_neg h2, if_neg h2']
        by_cases h3 : primaryArtistChars (stripChars (lowerChars a.data)) =
            primaryArtistChars (stripChars (lowerChars b.data))
        · rw [if_pos h3, if_pos h3.symm]
        · have h3' : ¬ primaryArtistChars (stripChars (lowerChars b.data)) =
              primaryArtistChars (stripChars (lowerChars a.data)) := fun hc => h3 hc.symm
          rw [if_neg h3, if_neg h3']
          by_cases h4 : 0 < (wordSet (stripChars (lowerChars a.data))).card ∧
              0 < (wordSet (stripChars (lowerChars b.data))).card
          · have h4' : 0 < (wordSet (stripChars (lowerChars b.data))).card ∧
                0 < (wordSet (stripChars (lowerChars a.data))).card := ⟨h4.2, h4.1⟩
            rw [if_pos h4, if_pos h4',
              Finset.inter_comm (wordSet (stripChars (lowerChars a.data)))
                (wordSet (stripChars (lowerChars b.data))),
              max_comm ((wordSet (stripChars (lowerChars a.data))).card)
                ((wordSet (stripChars (lowerChars b.data))).card)]
          · have h4' : ¬ (0 < (wordSet (stripChars (lowerChars b.data))).card ∧
                0 < (wordSet (stripChars (lowerChars a.data))).card) := fun hc =>
              h4 ⟨hc.2, hc.1⟩
            rw [if_neg h4, if_neg h4']

/-! Score bounds: the similarity is in [0,1] and a candidate score is in
[0, 1.1] (0.6 + 0.2 + 0.2 + 0.1 sums to 1.1, not 1.0). -/

/-- The word-overlap rung never exceeds 1 (indeed never exceeds 0.7). -/
theorem overlap_term_le_one (w1 w2 : Finset (List Char)) (h1 : 0 < w1.card) :
    ((w1 ∩ w2).card : ℚ) / ((max w1.card w2.card : Nat) : ℚ) * 0.7 ≤ 1 := by
  have hle : ((w1 ∩ w2).card : ℚ) ≤ ((max w1.card w2.card : Nat) : ℚ) := by
    exact_mod_cast le_trans (Finset.card_le_card Finset.inter_subset_left) (le_max_left _ _)
  have hmax : (0 : ℚ) < ((max w1.card w2.card : Nat) : ℚ) := by
    exact_mod_cast Nat.lt_of_lt_of_le h1 (le_max_left _ _)
  have hdiv := div_le_one_of_le₀ hle hmax.le
  calc ((w1 ∩ w2).card : ℚ) / ((max w1.card w2.card : Nat) : ℚ) * 0.7
      ≤ 1 * 0.7 := mul_le_mul_of_nonneg_right hdiv (by norm_num)
    _ ≤ 1 := by norm_num

/-- The similarity scorer never goes below 0. -/
theorem similarity_nonneg (a b : String) : 0 ≤ calculateArtistSimilarity a b := by
  simp only [calculateArtistSimilarity]
  split_ifs <;> try norm_num
  positivity

/-- The similarity scorer never exceeds 1. -/
theorem similarity_le_one (a b : String) : calculateArtistSimilarity a b ≤ 1 := by
  simp only [calculateArtistSimilarity]
  split_ifs with h1 h2 h3 h4 h5
  · norm_num
  · norm_num
  · norm_num
  · norm_num
  · exact overlap_term_le_one _ _ h5.1
  · norm_num

/-- A candidate score is nonnegative. -/
theorem scoreTrack_nonneg (ctx : MatchCtx) (t : TidalTrack) : 0 ≤ scoreTrack ctx t := by
  simp only [scoreTrack]
  refine add_nonneg (add_nonneg (add_nonneg
    (mul_nonneg (similarity_nonneg _ _) (by norm_num)) ?_) ?_) ?_
  · cases ctx.album_name with
    | none => norm_num
    | some al =>
      cases t.album with
      | none => norm_num
      | some talb =>
        simp only []
        split_ifs
        · norm_num
        · exact mul_nonneg (similarity_nonneg _ _) (by norm_num)
  · cases ctx.duration_ms with
    | none => cases t.duration <;> norm_num
    | some dm =>
      cases t.duration with
      | none => norm_num
      | some ds => simp only []; split_ifs <;> norm_num
  · split_ifs <;> norm_num

/-- A candidate score is at most 1.1: the four summands are bounded by
0.6, 0.2, 0.2 and 0.1. -/
theorem scoreTrack_le (ctx : MatchCtx) (t : TidalTrack) : scoreTrack ctx t ≤ 11/10 := by
  simp only [scoreTrack]
  have h1 : calculateArtistSimilarity ctx.artist_name (candidateArtistName t) * 0.6 ≤ 0.6 := by
    calc calculateArtistSimilarity ctx.artist_name (candidateArtistName t) * 0.6
        ≤ 1 * 0.6 := mul_le_mul_of_nonneg_right (similarity_le_one _ _) (by norm_num)
      _ = 0.6 := by norm_num
  have h2 : (match ctx.album_name, t.album with
      | some al, some talb =>
        if al.data.isEmpty then 0
        else calculateArtistSimilarity al talb.name * 0.2
      | _, _ => (0 : ℚ)) ≤ 0.2 := by
    cases ctx.album_name with
    | none => norm_num
    | some al =>
      cases t.album with
      | none => norm_num
      | some talb =>
        simp only []
        split_ifs
        · norm_num
        · calc calculateArtistSimilarity al talb.name * 0.2
              ≤ 1 * 0.2 := mul_le_mul_of_nonneg_right (similarity_le_one _ _) (by norm_num)
            _ ≤ 0.2 := by norm_num
  have h3 : (match ctx.duration_ms, t.duration with
      | some dm, some ds =>
        if dm = 0 ∨ ds = 0 then (0.1 : ℚ)
        else if ((dm : ℤ) - (ds : ℤ) * 1000).natAbs < 5000 then 0.2
        else if ((dm : ℤ) - (ds : ℤ) * 1000).natAbs < 15000 then 0.1
        else 0
      | _, _ => (0.1 : ℚ)) ≤ 0.2 := by
    cases ctx.duration_ms with
    | none => cases t.duration <;> norm_num
    | some dm =>
      cases t.duration with
      | none => norm_num
      | some ds => simp only []; split_ifs <;> norm_num
  have h4 : (if containsSub (lowerChars ctx.track_clean.data)
        (lowerChars (normalizeSearchText t.name).data) ||
        containsSub (lowerChars (normalizeSearchText t.name).data)
          (lowerChars ctx.track_clean.data)
      then (0.1 : ℚ) else 0) ≤ 0.1 := by split_ifs <;> norm_num
  refine le_trans (add_le_add (add_le_add (add_le_add h1 h2) h3) h4) (by norm_num)

/-! State lemmas for the query loop. -/

/-- One best-candidate update moves `best_score` to the max of the old
score and the candidate's score. -/
theorem scoreStep_best_score (ctx : MatchCtx) (q : String) (st : MatchState)
    (t : TidalTrack) :
    (scoreStep ctx q st t).best_score = max st.best_score (scoreTrack ctx t) := by
  unfold scoreStep
  split_ifs with h
  · exact (max_eq_right h.le).symm
  · exact (max_eq_left (not_lt.mp h)).symm

/-- Folding candidate lists concatenates. -/
theorem foldPairs_append (ctx : MatchCtx) :
    ∀ (xs ys : List (String × TidalTrack)) (st : MatchState),
      foldPairs ctx st (xs ++ ys) = foldPairs ctx (foldPairs ctx st xs) ys := by
  intro xs
  induction xs with
  | nil => intro ys st; rfl
  | cons p xs ih => intro ys st; exact ih ys (scoreStep ctx p.1 st p.2)

/-- The per-query fold over tracks is the pair fold over tagged tracks. -/
theorem foldl_eq_foldPairs (ctx : MatchCtx) (q : String) :
    ∀ (ts : List TidalTrack) (st : MatchState),
      ts.foldl (scoreStep ctx q) st = foldPairs ctx st (ts.map (fun t => (q, t))) := by
  intro ts
  induction ts with
  | nil => intro st; rfl
  | cons t ts ih => intro st; exact ih (scoreStep ctx q st t)

/-- The seed never exceeds the running maximum. -/
theorem maxFrom_ge (ctx : MatchCtx) :
    ∀ (ps : List (String × TidalTrack)) (b : ℚ), b ≤ maxFrom ctx b ps := by
  intro ps
  induction ps with
  | nil => intro b; exact le_refl b
  | cons p ps ih => intro b; exact le_trans (le_max_left _ _) (ih _)

/-- The running maximum stays at most 1.1 when the seed does. -/
theorem maxFrom_le (ctx : MatchCtx) :
    ∀ (ps : List (String × TidalTrack)) (b : ℚ), b ≤ 11/10 →
      maxFrom ctx b ps ≤ 11/10 := by
  intro ps
  induction ps with
  | nil => intro b h; exact h
  | cons p ps ih => intro b h; exact ih _ (max_le h (scoreTrack_le ctx p.2))

/-- The pair fold computes the running maximum in `best_score`. -/
theorem foldPairs_best_score (ctx : MatchCtx) :
    ∀ (ps : List (String × TidalTrack)) (st : MatchState),
      (foldPairs ctx st ps).best_score = maxFrom ctx st.best_score ps := by
  intro ps
  induction ps with
  | nil => intro st; rfl
  | cons p ps ih =>
    intro st
    show (foldPairs ctx (scoreStep ctx p.1 st p.2) ps).best_score =
      maxFrom ctx (max st.best_score (scoreTrack ctx p.2)) ps
    rw [ih, scoreStep_best_score]

/-- The final state of the query loop is the pair fold of the initial state
over the candidates it scored, in encounter order. -/
theorem runQueries_state_eq (search : String → Option (List TidalTrack))
    (ctx : MatchCtx) :
    ∀ (qs : List String) (st : MatchState),
      (runQueries search ctx qs st).state =
        foldPairs ctx st (runQueries search ctx qs st).seen := by
  intro qs
  induction qs with
  | nil => intro st; rfl
  | cons q qs ih =>
    intro st
    simp only [runQueries]
    cases h : search q with
    | none => exact ih st
    | some ts =>
      by_cases hE : ts.isEmpty
      · simp only [if_pos hE]
        exact ih st
      · simp only [if_neg hE]
        by_cases h8 : (ts.foldl (scoreStep ctx q) st).best_score ≥ 0.8
        · simp only [if_pos h8]
          exact foldl_eq_foldPairs ctx q ts st
        · simp only [if_neg h8]
          show (runQueries search ctx qs (ts.foldl (scoreStep ctx q) st)).state =
            foldPairs ctx st (ts.map (fun t => (q, t)) ++
              (runQueries search ctx qs (ts.foldl (scoreStep ctx q) st)).seen)
          rw [foldPairs_append, ← foldl_eq_foldPairs]
          exact ih (ts.foldl (scoreStep ctx q) st)

/-- The loop's final `best_score` never exceeds 1.1 when it starts below. -/
theorem runQueries_best_le (search : String → Option (List TidalTrack))
    (ctx : MatchCtx) :
    ∀ (qs : List String) (st : MatchState), st.best_score ≤ 11/10 →
      (runQueries search ctx qs st).state.best_score ≤ 11/10 := by
  have hfold : ∀ (q : String) (ts : List TidalTrack) (st : MatchState),
      st.best_score ≤ 11/10 → (ts.foldl (scoreStep ctx q) st).best_score ≤ 11/10 := by
    intro q ts
    induction ts with
    | nil => intro st h; exact h
    | cons t ts ih =>
      intro st h
      exact ih _ (by rw [scoreStep_best_score]; exact max_le h (scoreTrack_le ctx t))
  intro qs
  induction qs with
  | nil => intro st h; exact h
  | cons q qs ih =>
    intro st h
    simp only [runQueries]
    cases hq : search q with
    | none => exact ih st h
    | some ts =>
      by_cases hE : ts.isEmpty
      · simp only [if_pos hE]; exact ih st h
      · simp only [if_neg hE]
        by_cases h8 : (ts.foldl (scoreStep ctx q) st).best_score ≥ 0.8
        · simp only [if_pos h8]; exact hfold q ts st h
        · simp only [if_neg h8]; exact ih _ (hfold q ts st h)

/-- A successful return means the guard passed: the best match is the
returned track, the confidence is the final `best_score` (which clears 0.5)
and the query is the recorded one. -/
theorem finishRun_some (o : RunOut) (r : MatchResult) (h : finishRun o = some r) :
    o.state.best_match = some r.track ∧ r.confidence = o.state.best_score ∧
    r.query_used = o.state.query_used ∧ (0.5 : ℚ) ≤ o.state.best_score := by
  unfold finishRun at h
  cases hbm : o.state.best_match with
  | none => rw [hbm] at h; simp at h
  | some t =>
    rw [hbm] at h
    change (if o.state.best_score ≥ 0.5
        then some (⟨t, o.state.best_score, o.state.query_used⟩ : MatchResult)
        else none) = some r at h
    split_ifs at h with h5
    obtain rfl := Option.some.inj h
    exact ⟨rfl, rfl, rfl, h5⟩

/-! Claim C1: the range of returned confidences. -/

unseal Rat.add Rat.mul Rat.inv Rat.sub Rat.ofScientific in
/-- C1 counterexample: on the spec's perfect single candidate (exact artist,
exact album, duration within 5 s, contained name) the returned confidence is
0.6 + 0.2 + 0.2 + 0.1 = 1.1, which exceeds 1, so `confidence` neither equals
1.0 nor lies in [0, 1]. -/
theorem confidence_unit_interval_cex :
    searchTidalTrack helloSearch "Hello" "Adele" (some "25") (some 295000) =
      some ⟨helloTrack, 11/10, some "\"Hello\" \"Adele\""⟩ ∧
    ¬ ((11 : ℚ)/10 ≤ 1) := by decide

/-- C1 amended: every MatchResult the matcher returns has confidence in
[0.5, 1.1]; the perfect-candidate scenario attains the upper bound 1.1. -/
theorem confidence_in_range (search : String → Option (List TidalTrack))
    (track_name artist_name : String) (album_name : Option String)
    (duration_ms : Option Nat) (r : MatchResult)
    (h : searchTidalTrack search track_name artist_name album_name duration_ms = some r) :
    1/2 ≤ r.confidence ∧ r.confidence ≤ 11/10 := by
  by_cases hE : (normalizeSearchText track_name).data.isEmpty
  · simp [searchTidalTrack, searchTidalTrackRun, hE] at h
  · rw [Bool.not_eq_true] at hE
    simp only [searchTidalTrack, searchTidalTrackRun, hE, Bool.false_eq_true,
      if_false] at h
    obtain ⟨hbm, hconf, hqu, h5⟩ := finishRun_some _ _ h
    constructor
    · rw [hconf]; exact le_trans (by norm_num) h5
    · rw [hconf]
      exact runQueries_best_le search _ _ _ (by norm_num)

set_option maxRecDepth 4000 in
unseal Rat.add Rat.mul Rat.inv Rat.sub Rat.ofScientific in
/-- C1 witness: the perfect-candidate run, whose confidence 1.1 lies in
[0.5, 1.1]. -/
theorem confidence_in_range_witness :
    1/2 ≤ (⟨helloTrack, 11/10, some "\"Hello\" \"Adele\""⟩ : MatchResult).confidence ∧
    (⟨helloTrack, 11/10, some "\"Hello\" \"Adele\""⟩ : MatchResult).confidence ≤ 11/10 :=
  confidence_in_range helloSearch "Hello" "Adele" (some "25") (some 295000)
    ⟨helloTrack, 11/10, some "\"Hello\" \"Adele\""⟩ (by decide)

/-! Claim C4: at most 4 search calls, none from a state that already
reached 0.8. -/

/-- Unfolding of the loop on a raised call. -/
theorem runQueries_none_eq (search : String → Option (List TidalTrack))
    (ctx : MatchCtx) (q : String) (qs : List String) (st : MatchState)
    (h : search q = none) :
    runQueries search ctx (q :: qs) st =
      ⟨(runQueries search ctx qs st).state,
       (q, st.best_score) :: (runQueries search ctx qs st).calls,
       (runQueries search ctx qs st).seen⟩ := by
  simp [runQueries, h]

/-- Unfolding of the loop on an empty result list. -/
theorem runQueries_empty_eq (search : String → Option (List TidalTrack))
    (ctx : MatchCtx) (q : String) (qs : List String) (st : MatchState)
    (ts : List TidalTrack) (h : search q = some ts) (hE : ts.isEmpty) :
    runQueries search ctx (q :: qs) st =
      ⟨(runQueries search ctx qs st).state,
       (q, st.best_score) :: (runQueries search ctx qs st).calls,
       (runQueries search ctx qs st).seen⟩ := by
  simp [runQueries, h, hE]

/-- Unfolding of the loop when scoring reaches 0.8: it breaks. -/
theorem runQueries_break_eq (search : String → Option (List TidalTrack))
    (ctx : MatchCtx) (q : String) (qs : List String) (st : MatchState)
    (ts : List TidalTrack) (h : search q = some ts) (hE : ¬ ts.isEmpty = true)
    (h8 : (ts.foldl (scoreStep ctx q) st).best_score ≥ 0.8) :
    runQueries search ctx (q :: qs) st =
      ⟨ts.foldl (scoreStep ctx q) st, [(q, st.best_score)],
       ts.map (fun t => (q, t))⟩ := by
  simp [runQueries, h, hE, h8]

/-- Unfolding of the loop when scoring stays below 0.8: it continues. -/
theorem runQueries_cont_eq (search : String → Option (List TidalTrack))
    (ctx : MatchCtx) (q : String) (qs : List String) (st : MatchState)
    (ts : List TidalTrack) (h : search q = some ts) (hE : ¬ ts.isEmpty = true)
    (h8 : ¬ (ts.foldl (scoreStep ctx q) st).best_score ≥ 0.8) :
    runQueries search ctx (q :: qs) st =
      ⟨(runQueries search ctx qs (ts.foldl (scoreStep ctx q) st)).state,
       (q, st.best_score) ::
         (runQueries search ctx qs (ts.foldl (scoreStep ctx q) st)).calls,
       ts.map (fun t => (q, t)) ++
         (runQueries search ctx qs (ts.foldl (scoreStep ctx q) st)).seen⟩ := by
  simp [runQueries, h, hE, h8]

/-- The loop issues at most one call per query. -/
theorem runQueries_calls_le (search : String → Option (List TidalTrack))
    (ctx : MatchCtx) :
    ∀ (qs : List String) (st : MatchState),
      ((runQueries search ctx qs st).calls).length ≤ qs.length := by
  intro qs
  induction qs with
  | nil => intro st; exact Nat.le_refl 0
  | cons q qs ih =>
    intro st
    cases hq : search q with
    | none =>
      rw [runQueries_none_eq search ctx q qs st hq]
      simpa using Nat.succ_le_succ (ih st)
    | some ts =>
      by_cases hE : ts.isEmpty
      · rw [runQueries_empty_eq search ctx q qs st ts hq hE]
        simpa using Nat.succ_le_succ (ih st)
      · by_cases h8 : (ts.foldl (scoreStep ctx q) st).best_score ≥ 0.8
        · rw [runQueries_break_eq search ctx q qs st ts hq hE h8]
          simp
        · rw [runQueries_cont_eq search ctx q qs st ts hq hE h8]
          simpa using Nat.succ_le_succ (ih _)

/-- Every call the loop issues is issued from a state whose running best is
still below 0.8 (given it starts below 0.8, which it does, at 0). -/
theorem runQueries_calls_below (search : String → Option (List TidalTrack))
    (ctx : MatchCtx) :
    ∀ (qs : List String) (st : MatchState), st.best_score < 0.8 →
      ∀ p ∈ (runQueries search ctx qs st).calls, p.2 < 0.8 := by
  intro qs
  induction qs with
  | nil => intro st h p hp; simp [runQueries] at hp
  | cons q qs ih =>
    intro st h p hp
    cases hq : search q with
    | none =>
      rw [runQueries_none_eq search ctx q qs st hq] at hp
      simp only [List.mem_cons] at hp
      rcases hp with rfl | hp
      · exact h
      · exact ih st h p hp
    | some ts =>
      by_cases hE : ts.isEmpty
      · rw [runQueries_empty_eq search ctx q qs st ts hq hE] at hp
        simp only [List.mem_cons] at hp
        rcases hp with rfl | hp
        · exact h
        · exact ih st h p hp
      · by_cases h8 : (ts.foldl (scoreStep ctx q) st).best_score ≥ 0.8
        · rw [runQueries_break_eq search ctx q qs st ts hq hE h8] at hp
          simp only [List.mem_singleton] at hp
          rw [hp]
          exact h
        · rw [runQueries_cont_eq search ctx q qs st ts hq hE h8] at hp
          simp only [List.mem_cons] at hp
          rcases hp with rfl | hp
          · exact h
          · exact ih _ (not_le.mp h8) p hp

/-- At most 4 fallback queries are built. -/
theorem buildQueries_len (track_clean artist_clean primary_artist : String) :
    (buildQueries track_clean artist_clean primary_artist).length ≤ 4 := by
  unfold buildQueries
  split_ifs <;> simp

/-- C4: one match attempt issues at most 4 search calls, and every call is
issued while the running best score is still below 0.8 — none after it
reaches 0.8. -/
theorem search_calls_bounded (search : String → Option (List TidalTrack))
    (track_name artist_name : String) (album_name : Option String)
    (duration_ms : Option Nat) :
    (searchTidalTrackCalls search track_name artist_name album_name duration_ms).length ≤ 4 ∧
    ∀ p ∈ searchTidalTrackCalls search track_name artist_name album_name duration_ms,
      p.2 < 0.8 := by
  by_cases hE : (normalizeSearchText track_name).data.isEmpty
  · constructor <;> simp [searchTidalTrackCalls, searchTidalTrackRun, hE]
  · rw [Bool.not_eq_true] at hE
    have hcalls : searchTidalTrackCalls search track_name artist_name album_name duration_ms =
        (runQueries search (mkCtx artist_name album_name duration_ms track_name)
          (buildQueries (normalizeSearchText track_name)
            (normalizeSearchText artist_name)
            (extractPrimaryArtist (normalizeSearchText artist_name)))
          ⟨none, 0, none⟩).calls := by
      simp [searchTidalTrackCalls, searchTidalTrackRun, hE]
    rw [hcalls]
    exact ⟨le_trans (runQueries_calls_le _ _ _ _) (buildQueries_len _ _ _),
      runQueries_calls_below _ _ _ _ (by norm_num)⟩

unseal Rat.add Rat.mul Rat.inv Rat.sub Rat.ofScientific in
/-- C4 witness: with empty search results, the attempt for two plain words
issues 3 calls (the full-artist query coincides with the primary-artist
query), all from best score 0. -/
theorem search_calls_bounded_witness :
    (searchTidalTrackCalls emptySearch "Hello" "Adele" none none).length ≤ 4 ∧
    (("Hello", (0 : ℚ)) : String × ℚ).2 < 0.8 :=
  ⟨(search_calls_bounded emptySearch "Hello" "Adele" none none).1,
   (search_calls_bounded emptySearch "Hello" "Adele" none none).2
     ("Hello", (0 : ℚ)) (by decide)⟩

/-! Claim C9: the returned candidate is the first one attaining the maximal
score. -/

/-- Reduction of `find?` at a matching head. -/
theorem find?_cons_true {α : Type} (p : α → Bool) (a : α) (l : List α)
    (h : p a = true) : (a :: l).find? p = some a := by
  simp [List.find?, h]

/-- Reduction of `find?` at a non-matching head. -/
theorem find?_cons_false {α : Type} (p : α → Bool) (a : α) (l : List α)
    (h : p a = false) : (a :: l).find? p = l.find? p := by
  simp [List.find?, h]

/-- The best-candidate fold keeps the first candidate attaining the running
maximum: if nothing beats the seed the state is unchanged, and otherwise the
final state holds exactly the first pair whose score equals the maximum. -/
theorem foldPairs_first_max (ctx : MatchCtx) :
    ∀ (ps : List (String × TidalTrack)) (st : MatchState),
      (maxFrom ctx st.best_score ps ≤ st.best_score → foldPairs ctx st ps = st) ∧
      (st.best_score < maxFrom ctx st.best_score ps →
        ∃ p, ps.find? (fun x => decide (scoreTrack ctx x.2 = maxFrom ctx st.best_score ps)) =
            some p ∧
          foldPairs ctx st ps = ⟨some p.2, scoreTrack ctx p.2, some p.1⟩) := by
  intro ps
  induction ps with
  | nil =>
    intro st
    exact ⟨fun _ => rfl, fun h => absurd h (lt_irrefl _)⟩
  | cons p ps ih =>
    intro st
    by_cases hs : scoreTrack ctx p.2 > st.best_score
    · have hstep : scoreStep ctx p.1 st p.2 = ⟨some p.2, scoreTrack ctx p.2, some p.1⟩ := by
        unfold scoreStep; rw [if_pos hs]
      have hmx : max st.best_score (scoreTrack ctx p.2) = scoreTrack ctx p.2 :=
        max_eq_right hs.le
      have hM : maxFrom ctx st.best_score (p :: ps) =
          maxFrom ctx (scoreTrack ctx p.2) ps := by
        show maxFrom ctx (max st.best_score (scoreTrack ctx p.2)) ps = _
        rw [hmx]
      have hF : foldPairs ctx st (p :: ps) =
          foldPairs ctx ⟨some p.2, scoreTrack ctx p.2, some p.1⟩ ps := by
        show foldPairs ctx (scoreStep ctx p.1 st p.2) ps = _
        rw [hstep]
      have hge : scoreTrack ctx p.2 ≤ maxFrom ctx (scoreTrack ctx p.2) ps :=
        maxFrom_ge ctx ps _
      constructor
      · intro hle
        rw [hM] at hle
        exact absurd hs (not_lt.mpr (le_trans hge hle))
      · intro _
        rcases le_or_lt (maxFrom ctx (scoreTrack ctx p.2) ps) (scoreTrack ctx p.2)
          with hms | hms
        · have heq : scoreTrack ctx p.2 = maxFrom ctx (scoreTrack ctx p.2) ps :=
            le_antisymm hge hms
          refine ⟨p, ?_, ?_⟩
          · rw [hM]
            exact find?_cons_true _ _ _ (decide_eq_true heq)
          · rw [hF]
            exact (ih ⟨some p.2, scoreTrack ctx p.2, some p.1⟩).1 hms
        · have hlt' : (⟨some p.2, scoreTrack ctx p.2, some p.1⟩ : MatchState).best_score <
              maxFrom ctx
                (⟨some p.2, scoreTrack ctx p.2, some p.1⟩ : MatchState).best_score ps := hms
          obtain ⟨p', hfind, hfp⟩ :=
            (ih ⟨some p.2, scoreTrack ctx p.2, some p.1⟩).2 hlt'
          rw [show (⟨some p.2, scoreTrack ctx p.2, some p.1⟩ : MatchState).best_score =
              scoreTrack ctx p.2 from rfl] at hfind
          refine ⟨p', ?_, ?_⟩
          · rw [hM]
            have hd : decide (scoreTrack ctx p.2 =
                maxFrom ctx (scoreTrack ctx p.2) ps) = false :=
              decide_eq_false (ne_of_lt hms)
            simp only [List.find?, hd]
            exact hfind
          · rw [hF]
            exact hfp
    · have hstep : scoreStep ctx p.1 st p.2 = st := by
        unfold scoreStep; rw [if_neg hs]
      have hmx : max st.best_score (scoreTrack ctx p.2) = st.best_score :=
        max_eq_left (not_lt.mp hs)
      have hM : maxFrom ctx st.best_score (p :: ps) = maxFrom ctx st.best_score ps := by
        show maxFrom ctx (max st.best_score (scoreTrack ctx p.2)) ps = _
        rw [hmx]
      have hF : foldPairs ctx st (p :: ps) = foldPairs ctx st ps := by
        show foldPairs ctx (scoreStep ctx p.1 st p.2) ps = _
        rw [hstep]
      constructor
      · intro hle
        rw [hM] at hle
        rw [hF]
        exact (ih st).1 hle
      · intro hlt
        rw [hM] at hlt
        obtain ⟨p', hfind, hfp⟩ := (ih st).2 hlt
        have hne : scoreTrack ctx p.2 ≠ maxFrom ctx st.best_score ps :=
          ne_of_lt (lt_of_le_of_lt (not_lt.mp hs) hlt)
        refine ⟨p', ?_, ?_⟩
        · rw [hM]
          have hd : decide (scoreTrack ctx p.2 =
              maxFrom ctx st.best_score ps) = false :=
            decide_eq_false hne
          simp only [List.find?, hd]
          exact hfind
        · rw [hF]
          exact hfp

/-- C9: the running best is replaced only by a strictly greater score, so a
returned MatchResult holds the first encountered candidate (earliest query,
earliest position) whose score attains the maximum over all scored
candidates; its confidence is that maximum and `query_used` is that
candidate's query. -/
theorem first_best_candidate_returned (search : String → Option (List TidalTrack))
    (track_name artist_name : String) (album_name : Option String)
    (duration_ms : Option Nat) (r : MatchResult)
    (h : searchTidalTrack search track_name artist_name album_name duration_ms = some r) :
    r.confidence = maxFrom (mkCtx artist_name album_name duration_ms track_name) 0
      (searchTidalTrackSeen search track_name artist_name album_name duration_ms) ∧
    ∃ p, (searchTidalTrackSeen search track_name artist_name album_name
        duration_ms).find?
        (fun x => decide (scoreTrack (mkCtx artist_name album_name duration_ms track_name)
          x.2 = r.confidence)) = some p ∧
      r.track = p.2 ∧ r.query_used = some p.1 := by
  by_cases hE : (normalizeSearchText track_name).data.isEmpty
  · simp [searchTidalTrack, searchTidalTrackRun, hE] at h
  · rw [Bool.not_eq_true] at hE
    simp only [searchTidalTrack, searchTidalTrackRun, hE, Bool.false_eq_true,
      if_false] at h
    have hseen : searchTidalTrackSeen search track_name artist_name album_name duration_ms =
        (runQueries search (mkCtx artist_name album_name duration_ms track_name)
          (buildQueries (normalizeSearchText track_name)
            (normalizeSearchText artist_name)
            (extractPrimaryArtist (normalizeSearchText artist_name)))
          ⟨none, 0, none⟩).seen := by
      simp [searchTidalTrackSeen, searchTidalTrackRun, hE]
    obtain ⟨hbm, hconf, hqu, h5⟩ := finishRun_some _ _ h
    have hbridge := runQueries_state_eq search
      (mkCtx artist_name album_name duration_ms track_name)
      (buildQueries (normalizeSearchText track_name)
        (normalizeSearchText artist_name)
        (extractPrimaryArtist (normalizeSearchText artist_name)))
      ⟨none, 0, none⟩
    have hbest : (runQueries search (mkCtx artist_name album_name duration_ms track_name)
        (buildQueries (normalizeSearchText track_name)
          (normalizeSearchText artist_name)
          (extractPrimaryArtist (normalizeSearchText artist_name)))
        ⟨none, 0, none⟩).state.best_score =
        maxFrom (mkCtx artist_name album_name duration_ms track_name) 0
          (runQueries search (mkCtx artist_name album_name duration_ms track_name)
            (buildQueries (normalizeSearchText track_name)
              (normalizeSearchText artist_name)
              (extractPrimaryArtist (normalizeSearchText artist_name)))
            ⟨none, 0, none⟩).seen := by
      rw [hbridge, foldPairs_best_score]
    by_cases hm : maxFrom (mkCtx artist_name album_name duration_ms track_name) 0
        (runQueries search (mkCtx artist_name album_name duration_ms track_name)
          (buildQueries (normalizeSearchText track_name)
            (normalizeSearchText artist_name)
            (extractPrimaryArtist (normalizeSearchText artist_name)))
          ⟨none, 0, none⟩).seen ≤ 0
    · have hid := (foldPairs_first_max (mkCtx artist_name album_name duration_ms track_name)
        (runQueries search (mkCtx artist_name album_name duration_ms track_name)
          (buildQueries (normalizeSearchText track_name)
            (normalizeSearchText artist_name)
            (extractPrimaryArtist (normalizeSearchText artist_name)))
          ⟨none, 0, none⟩).seen ⟨none, 0, none⟩).1 hm
      rw [← hbridge] at hid
      rw [hid] at hbm
      simp at hbm
    · push_neg at hm
      obtain ⟨p, hfind, hfp⟩ :=
        (foldPairs_first_max (mkCtx artist_name album_name duration_ms track_name)
          (runQueries search (mkCtx artist_name album_name duration_ms track_name)
            (buildQueries (normalizeSearchText track_name)
              (normalizeSearchText artist_name)
              (extractPrimaryArtist (normalizeSearchText artist_name)))
            ⟨none, 0, none⟩).seen ⟨none, 0, none⟩).2 hm
      rw [← hbridge] at hfp
      have hconfmax : r.confidence =
          maxFrom (mkCtx artist_name album_name duration_ms track_name) 0
            (runQueries search (mkCtx artist_name album_name duration_ms track_name)
              (buildQueries (normalizeSearchText track_name)
                (normalizeSearchText artist_name)
                (extractPrimaryArtist (normalizeSearchText artist_name)))
              ⟨none, 0, none⟩).seen := by
        rw [hconf, hbest]
      constructor
      · rw [hseen]
        exact hconfmax
      · refine ⟨p, ?_, ?_, ?_⟩
        · rw [hseen, hconfmax]
          exact hfind
        · rw [hfp] at hbm
          exact (Option.some.inj hbm).symm
        · rw [hqu, hfp]

unseal Rat.add Rat.mul Rat.inv Rat.sub Rat.ofScientific in
/-- C9 witness: two identically scoring candidates in one reply; the first,
`tieTrackA`, is the one returned, found by the quoted first query. -/
theorem first_best_candidate_returned_witness :
    (⟨tieTrackA, 4/5, some "\"Hello\" \"Adele\""⟩ : MatchResult).confidence =
      maxFrom (mkCtx "Adele" none none "Hello") 0
        (searchTidalTrackSeen tieSearch "Hello" "Adele" none none) ∧
    ∃ p, (searchTidalTrackSeen tieSearch "Hello" "Adele" none none).find?
        (fun x => decide (scoreTrack (mkCtx "Adele" none none "Hello") x.2 =
          (⟨tieTrackA, 4/5, some "\"Hello\" \"Adele\""⟩ : MatchResult).confidence)) =
        some p ∧
      (⟨tieTrackA, 4/5, some "\"Hello\" \"Adele\""⟩ : MatchResult).track = p.2 ∧
      (⟨tieTrackA, 4/5, some "\"Hello\" \"Adele\""⟩ : MatchResult).query_used =
        some p.1 :=
  first_best_candidate_returned tieSearch "Hello" "Adele" none none
    ⟨tieTrackA, 4/5, some "\"Hello\" \"Adele\""⟩ (by decide)

end SpotifyTidal
